import Mathlib

/-!
Verification of the GitHub-and-document analyzer service.

The development shallowly embeds the two request handlers and their helper
functions. Text is modelled as `List Char` (one entry per UTF-16 unit of the
original JavaScript strings; all inputs considered here are ASCII). External
effects are modelled as explicit inputs: each PDF-extraction strategy is an
`Option String` (`none` = the strategy threw, `some s` = it returned `s`),
the hosted model reply is an `Option String`, and `JSON.parse` is an oracle
parameter.
-/

/-- Character class of the JavaScript `\s` regex escape (and of
`String.prototype.trim`): ASCII whitespace plus the common Unicode
whitespace code points. -/
def isWS (c : Char) : Bool :=
  c = ' ' || c = '\t' || c = '\n' || c = '\r' || c.toNat = 11 || c.toNat = 12 ||
  c.toNat = 160 || c.toNat = 0xFEFF || c.toNat = 0x2028 || c.toNat = 0x2029

/-- Character class of the readable-character regex
`[a-zA-Z0-9\s.,!?;:'"()\-\n\r\t]` in `isValidTextContent`
(code points 39 and 34 are the apostrophe and the double quote). -/
def isReadableChar (c : Char) : Bool :=
  ('a' ≤ c && c ≤ 'z') || ('A' ≤ c && c ≤ 'Z') || ('0' ≤ c && c ≤ '9') || isWS c ||
  c = '.' || c = ',' || c = '!' || c = '?' || c = ';' || c = ':' ||
  c.toNat = 39 || c.toNat = 34 || c = '(' || c = ')' || c = '-'

/-- JavaScript `str.split(/\s+/)`: the pieces between maximal whitespace
runs, including an empty piece at either end when the string starts or ends
with whitespace, and `[""]` for the empty string. -/
def splitWs : List Char → List (List Char)
  | [] => [[]]
  | c :: rest =>
    if isWS c then
      match rest with
      | [] => [[], []]
      | d :: _ => if isWS d then splitWs rest else [] :: splitWs rest
    else
      match splitWs rest with
      | [] => [[c]]
      | p :: ps => (c :: p) :: ps

/-- JavaScript `str.toLowerCase()` restricted to ASCII case mapping. -/
def toLowerList (l : List Char) : List Char := l.map Char.toLower

/-- JavaScript `str.trim()`. -/
def trimWS (l : List Char) : List Char :=
  ((l.dropWhile isWS).reverse.dropWhile isWS).reverse

def listStartsWith : List Char → List Char → Bool
  | _, [] => true
  | [], _ :: _ => false
  | a :: as, b :: bs => a = b && listStartsWith as bs

/-- JavaScript `hay.includes(needle)`: substring containment. -/
def listContainsSub (hay needle : List Char) : Bool :=
  listStartsWith hay needle ||
    match hay with
    | [] => false
    | _ :: t => listContainsSub t needle

/-- JavaScript `hay.endsWith(needle)`. -/
def listEndsWith (hay needle : List Char) : Bool :=
  listStartsWith hay.reverse needle.reverse

def isLowerHexDigit (c : Char) : Bool := ('0' ≤ c && c ≤ '9') || ('a' ≤ c && c ≤ 'f')

def isLowerAlnumUnd (c : Char) : Bool :=
  ('a' ≤ c && c ≤ 'z') || ('0' ≤ c && c ≤ '9') || c = '_'

def isVowel (c : Char) : Bool := c = 'a' || c = 'e' || c = 'i' || c = 'o' || c = 'u'

/-- The word filter of `isValidTextContent` (the words are already
lowercased by the caller): length in [3,20], not matching `^[0-9a-f]{8,}$`,
not matching `^[a-z0-9_]{8,}$`, containing a vowel, not matching
`^[0-9]+$`. -/
def isMeaningfulWord (w : List Char) : Bool :=
  3 ≤ w.length && w.length ≤ 20 &&
  !(8 ≤ w.length && w.all isLowerHexDigit) &&
  !(8 ≤ w.length && w.all isLowerAlnumUnd) &&
  w.any isVowel &&
  !(!w.isEmpty && w.all Char.isDigit)

/-- The fixed list of common English words from `isValidTextContent`. -/
def commonWords : List String :=
  ["the", "and", "or", "but", "in", "on", "at", "to", "for", "of", "with", "by",
   "is", "are", "was", "were", "be", "been", "have", "has", "had", "do", "does",
   "did", "will", "would", "could", "should", "this", "that", "these", "those",
   "a", "an"]

/-- JavaScript `commonWords.some(word => text.toLowerCase().includes(word))`. -/
def hasCommonWords (text : List Char) : Bool :=
  commonWords.any (fun w => listContainsSub (toLowerList text) w.data)

/-- The content validator `isValidTextContent` from the file-analysis route,
with the floating-point ratio comparisons `r / n < 0.7` and `m / n < 0.3`
rendered as the exact rational comparisons `r * 10 < n * 7` and
`m * 10 < n * 3`. -/
def isValidTextContent (text : List Char) : Bool :=
  if (trimWS text).length < 100 then false
  else
    let readableChars := (text.filter isReadableChar).length
    if readableChars * 10 < text.length * 7 then false
    else
      let words := splitWs (toLowerList text)
      let meaningfulWords := words.filter isMeaningfulWord
      if meaningfulWords.length * 10 < (max words.length 1) * 3 then false
      else if !hasCommonWords text then false
      else true

/-- Spec check 1: the trimmed length is at least 100 characters. -/
def specLengthCheck (text : List Char) : Prop := 100 ≤ (trimWS text).length

/-- Spec check 2: the number of readable characters divided by the total
length is at least 0.70. -/
def specReadableCheck (text : List Char) : Prop :=
  7 * text.length ≤ 10 * (text.filter isReadableChar).length

/-- Spec check 3: the fraction of whitespace-split words that are
meaningful is at least 0.30. -/
def specMeaningfulCheck (text : List Char) : Prop :=
  3 * (splitWs (toLowerList text)).length ≤
    10 * ((splitWs (toLowerList text)).filter isMeaningfulWord).length

/-- Spec check 4: at least one common English word occurs as a
case-insensitive substring of the text. -/
def specCommonWordCheck (text : List Char) : Prop := hasCommonWords text = true

theorem splitWs_ne_nil (l : List Char) : splitWs l ≠ [] := by
  induction l with
  | nil => simp [splitWs]
  | cons c rest ih =>
    by_cases hc : isWS c
    · cases rest with
      | nil => simp [splitWs, hc]
      | cons d rest2 =>
        by_cases hd : isWS d
        · simpa [splitWs, hc, hd] using ih
        · simp [splitWs, hc, hd]
    · cases hsp : splitWs rest with
      | nil => simp [splitWs, hc, hsp]
      | cons p ps => simp [splitWs, hc, hsp]

/-- String-level wrapper of the content validator. -/
def isValidS (s : String) : Bool := isValidTextContent s.data

/-- The strategy loop of the PDF branch of the file-analysis `POST` handler:
each entry is a strategy name paired with its outcome (`none` = the strategy
threw, `some c` = it returned `c`). On a throw the loop continues unchanged;
on a returned text the extraction method is recorded, then the loop breaks
if the validator accepts the text and otherwise clears the content and
continues. Returns the final `(content, extractionMethod)` pair. -/
def runChain : List (String × Option String) → String → String → String × String
  | [], content, method => (content, method)
  | (name, res) :: rest, content, method =>
    match res with
    | none => runChain rest content method
    | some c => if isValidS c then (c, name) else runChain rest "" name

/-- The fixed three-strategy PDF extraction chain, in source order:
`jina-ai`, `gemini-vision`, `pdf-js`, starting from empty content and the
method label `unknown`. -/
def pdfChain (jina gemini pdfjs : Option String) : String × String :=
  runChain [("jina-ai", jina), ("gemini-vision", gemini), ("pdf-js", pdfjs)] "" "unknown"

/-- An uploaded file: name, declared media type, and the text that
`file.text()` would return. -/
structure UploadedFile where
  name : String
  type : String
  textContent : String
deriving DecidableEq

/-- Analysis object shape shared by both routes (the five JSON fields
requested from the model and produced by the fallbacks). -/
structure AnalysisResult where
  summary : String
  features : List String
  technologies : List String
  useCases : List String
  insights : String
deriving DecidableEq

/-- Responses of the file-analysis endpoint: 200 with an analysis, 400 with
an error message, or 500 with an error message. -/
inductive FileResponse where
  | ok (analysis : AnalysisResult)
  | badRequest (msg : String)
  | serverError (msg : String)
deriving DecidableEq

/-- JavaScript `file.type === 'application/pdf' || file.name.toLowerCase().endsWith('.pdf')`. -/
def isPDFFile (f : UploadedFile) : Bool :=
  f.type = "application/pdf" || listEndsWith (toLowerList f.name.data) ".pdf".data

/-- JavaScript `file.type === 'text/markdown' || file.name.toLowerCase().endsWith('.md')`. -/
def isMarkdownFile (f : UploadedFile) : Bool :=
  f.type = "text/markdown" || listEndsWith (toLowerList f.name.data) ".md".data

/-- JavaScript `file.type === 'text/plain' || file.name.toLowerCase().endsWith('.txt')`. -/
def isTextFile (f : UploadedFile) : Bool :=
  f.type = "text/plain" || listEndsWith (toLowerList f.name.data) ".txt".data

/-- The terminal-failure message of the PDF branch (code point 8226 is the
bullet and 39 the apostrophe). -/
def pdfExtractionErrorMsg : String :=
  "Failed to extract readable text from PDF. This PDF might be:\n• Image-based (scanned document)\n• Password protected\n• Corrupted or using unsupported encoding\n• Contains only graphics/charts\n\nPlease try:\n• Converting to text format first\n• Using OCR software if it\x27s a scanned document\n• Ensuring the PDF has selectable text"

/-- The file-analysis `POST` handler. `file` is the form-data `file` field
(`none` when absent); `jina`, `gemini`, `pdfjs` are the three strategy
outcomes; `analyze` is `generateEnhancedFileAnalysis` as a function of the
extracted content and the extraction method (`Except.error e` models a
throw, which the surrounding `try`/`catch` turns into a 500 response). -/
def POSTanalyzeFile (file : Option UploadedFile) (jina gemini pdfjs : Option String)
    (analyze : String → String → Except String AnalysisResult) : FileResponse :=
  match file with
  | none => FileResponse.badRequest "No file provided"
  | some f =>
    if isPDFFile f then
      let r := pdfChain jina gemini pdfjs
      if r.1 = "" then FileResponse.badRequest pdfExtractionErrorMsg
      else
        match analyze r.1 r.2 with
        | Except.ok a => FileResponse.ok a
        | Except.error e => FileResponse.serverError ("Failed to analyze file: " ++ e)
    else if isMarkdownFile f || isTextFile f then
      match analyze f.textContent "direct-text" with
      | Except.ok a => FileResponse.ok a
      | Except.error e => FileResponse.serverError ("Failed to analyze file: " ++ e)
    else
      FileResponse.badRequest
        ("Unsupported file type: " ++ f.type ++ ". Please upload PDF, Markdown (.md), or Text (.txt) files.")

/-- Prefix of a character list up to and including its last closing brace
(code point 125), or `none` if it has no closing brace. -/
def cutAtLastRBrace : List Char → Option (List Char)
  | [] => none
  | c :: rest =>
    match cutAtLastRBrace rest with
    | some pre => some (c :: pre)
    | none => if c.toNat = 125 then some [c] else none

/-- JavaScript `text.match(/\x7b[\s\S]*\x7d/)`: the (single) match starts at
the first opening brace that has a closing brace after it and extends
greedily to the last closing brace of the text; `none` when no such pair
exists. -/
def extractJsonCandidate : List Char → Option (List Char)
  | [] => none
  | c :: rest =>
    if c.toNat = 123 then
      match cutAtLastRBrace rest with
      | some pre => some (c :: pre)
      | none => extractJsonCandidate rest
    else extractJsonCandidate rest

/-- The response-quality gate of `generateEnhancedFileAnalysis`: summary
longer than 100 characters, at least 3 features, at least 2 use cases,
insights longer than 100 characters. -/
def qualityCheck (p : AnalysisResult) : Bool :=
  100 < p.summary.length && 3 ≤ p.features.length &&
  2 ≤ p.useCases.length && 100 < p.insights.length

/-- JavaScript `x || dflt` for an optional string field: the default is used
when the field is absent or empty. -/
def jsOrDefault (o : Option String) (dflt : String) : String :=
  match o with
  | some s => if s = "" then dflt else s
  | none => dflt

/-- The deterministic fallback object of `generateEnhancedFileAnalysis`,
built from the computed document statistics (word, sentence and paragraph
counts), the content signals (`hasCode`, `hasTechnicalTerms`), the top
topics and the extraction method. The template strings are the source
literals (code point 39 is the apostrophe). -/
def buildFallback (wordCount sentenceCount paragraphCount : Nat)
    (hasCode hasTechnicalTerms : Bool) (topTopics : List String)
    (extractionMethod : String) : AnalysisResult :=
  { summary :=
      "This document contains " ++ toString wordCount ++ " words across " ++
      toString sentenceCount ++ " sentences and " ++ toString paragraphCount ++
      " paragraphs. The content focuses on " ++
      String.intercalate ", " (topTopics.take 3) ++ " and appears to be " ++
      (if hasTechnicalTerms then "technical documentation or educational material"
       else "informational content") ++ ". " ++
      (if hasCode then
        "It includes code examples and technical implementations, suggesting it\x27s meant for developers or technical professionals."
       else "The content is primarily explanatory and conceptual in nature.") ++
      " The document was successfully extracted using " ++ extractionMethod ++
      " and provides comprehensive coverage of its subject matter."
    features :=
      ["Comprehensive content with " ++ toString wordCount ++ " words organized in " ++
         toString paragraphCount ++ " main sections",
       "Primary topics include: " ++ String.intercalate ", " (topTopics.take 4),
       (if hasCode then "Contains code examples, functions, and technical implementations"
        else "Focuses on conceptual explanations and theoretical content"),
       "Document structure: " ++ toString sentenceCount ++ " sentences across multiple sections",
       "Successfully extracted using " ++ extractionMethod ++ " with high content quality"]
    technologies :=
      if hasTechnicalTerms then topTopics.take 6
      else ["Document Processing", "Text Analysis", "Content Management"]
    useCases :=
      ["Reference material for professionals working with " ++
         jsOrDefault (topTopics.get? 0) "the documented subject matter",
       "Educational resource for learning about " ++
         jsOrDefault (topTopics.get? 1) "the covered topics",
       (if hasCode then "Technical documentation for developers and engineers"
        else "Knowledge base for research and information purposes")]
    insights :=
      "This document provides substantial content about " ++
      String.intercalate ", " (topTopics.take 3) ++ " with " ++
      toString wordCount ++ " words of detailed information. The material is well-structured with " ++
      toString paragraphCount ++ " main sections and appears to target " ++
      (if hasTechnicalTerms then "technical professionals, developers, or engineers"
       else "general audiences interested in the subject matter") ++ ". " ++
      (if hasCode then
        "The inclusion of code examples and technical implementations makes it particularly valuable for hands-on learning and practical application."
       else
        "The explanatory nature of the content makes it suitable for educational and reference purposes.") ++
      " The successful extraction using " ++ extractionMethod ++
      " ensures high content fidelity, making this document valuable for knowledge sharing, training, and reference purposes." }

/-- The decision core of `generateEnhancedFileAnalysis` after the prompt is
sent. `modelText` is the model reply text (`none` = the credential was
missing, the upstream call returned a non-success status, or the fetch
threw; the function then rethrows `Failed to generate AI analysis`).
`jsonParse` is the `JSON.parse` oracle (`none` = the parse threw or the
parsed value lacks the expected fields). On a reply, the first brace-to-brace
candidate is parsed; a parse that passes the quality gate is returned as-is,
anything else falls back to the deterministic object built from the
computed statistics. -/
def generateFileAnalysisResult (modelText : Option String)
    (jsonParse : String → Option AnalysisResult)
    (wordCount sentenceCount paragraphCount : Nat)
    (hasCode hasTechnicalTerms : Bool) (topTopics : List String)
    (extractionMethod : String) : Except String AnalysisResult :=
  let fb := buildFallback wordCount sentenceCount paragraphCount hasCode
    hasTechnicalTerms topTopics extractionMethod
  match modelText with
  | none => Except.error "Failed to generate AI analysis"
  | some text =>
    match extractJsonCandidate text.data with
    | some j =>
      match jsonParse (String.mk j) with
      | some parsed => if qualityCheck parsed then Except.ok parsed else Except.ok fb
      | none => Except.ok fb
    | none => Except.ok fb

/-- Responses of the repository-analysis endpoint. -/
inductive RepoResponse where
  | ok (analysis : AnalysisResult)
  | badRequest (msg : String)
  | serverError (msg : String)
deriving DecidableEq

/-- The degraded stub of the repository path `generateAnalysis`: first 200
characters of the raw model text plus `...` and placeholder fields. -/
def repoAnalysisFallback (text : String) (language : String) : AnalysisResult :=
  { summary := String.mk (text.data.take 200) ++ "..."
    features := ["Feature extraction failed"]
    technologies := [language]
    useCases := ["Use case analysis failed"]
    insights := "Additional analysis unavailable" }

/-- The repository path `generateAnalysis` after the prompt is sent. The
source performs no `response.ok` check here: on a non-success upstream
status the reply body carries no `candidates` array, so reading
`data.candidates[0].content.parts[0].text` throws — modelled by
`data = none` yielding `Except.error`. On a reply text, the brace-to-brace
candidate is parsed; parse failure (or absence of a candidate) yields the
degraded stub, never an error. -/
def generateAnalysis (data : Option String)
    (jsonParse : String → Option AnalysisResult) (language : String) :
    Except Unit AnalysisResult :=
  match data with
  | none => Except.error ()
  | some text =>
    match extractJsonCandidate text.data with
    | some j =>
      match jsonParse (String.mk j) with
      | some parsed => Except.ok parsed
      | none => Except.ok (repoAnalysisFallback text language)
    | none => Except.ok (repoAnalysisFallback text language)

/-- The repository `POST` handler from the point where the analysis is
generated: an exception thrown inside `generateAnalysis` is caught by the
handler and turned into the 500 response `Failed to analyze repository`. -/
def handleRepoAnalysis (data : Option String)
    (jsonParse : String → Option AnalysisResult) (language : String) :
    RepoResponse :=
  match generateAnalysis data jsonParse language with
  | Except.ok a => RepoResponse.ok a
  | Except.error _ => RepoResponse.serverError "Failed to analyze repository"

/-- A contributor entry as returned by the upstream contributors call. -/
structure Contributor where
  login : String
  contributions : Nat
  avatar_url : String
deriving DecidableEq

/-- The upstream repository-info object; `Option` fields model JSON fields
that may be absent or null. -/
structure GHRepoInfo where
  name : String
  description : Option String
  stargazers_count : Nat
  forks_count : Nat
  language : Option String
  created_at : String
  updated_at : String
  topics : Option (List String)
deriving DecidableEq

/-- The metadata object assembled by `fetchRepoData`. -/
structure RepoData where
  name : String
  description : String
  stars : Nat
  forks : Nat
  language : String
  created_at : String
  updated_at : String
  topics : List String
  contributors : List Contributor
  languages : List (String × Nat)
  readme : String
deriving DecidableEq

/-- The merge step `fetchRepoData`: merges the repository-info, contributors and languages
responses with the best-effort README fetch (`readmeResult = none` models
the README request or its base64 decoding throwing, in which case the
`try`/`catch` leaves `readme` as the empty string). The `language` field
models `repoInfo.language || 'Unknown'` with `jsOrDefault`, since the empty
string is falsy in JavaScript and the default is non-empty; for the other
`x || dflt` fields the default is the empty string, the empty list or the
empty map, so on their falsy edge cases `Option.getD` gives the same value
as the source and is used directly. -/
def fetchRepoData (info : GHRepoInfo) (contributors : Option (List Contributor))
    (languages : Option (List (String × Nat))) (readmeResult : Option String) :
    RepoData :=
  { name := info.name
    description := info.description.getD ""
    stars := info.stargazers_count
    forks := info.forks_count
    language := jsOrDefault info.language "Unknown"
    created_at := info.created_at
    updated_at := info.updated_at
    topics := info.topics.getD []
    contributors := contributors.getD []
    languages := languages.getD []
    readme := readmeResult.getD "" }

/-- A well-formed English sample paragraph (107 characters), used as a
concrete validator-accepted input. -/
def sampleText : String :=
  "The quick brown fox jumps over the lazy dog and the cat sat on the mat with the happy dog in the sun today."

/-- The hex-like token of the spec example. -/
def hexTok : List Char := "a1b2c3d4a1b2c3d4".data

/-- The spec example token repeated `n` times. -/
def hexRepeat (n : Nat) : List Char := (List.replicate n hexTok).flatten

theorem dropWhile_eq_self_of (p : Char → Bool) (l : List Char)
    (h : ∀ c ∈ l, p c = false) : List.dropWhile p l = l := by
  cases l with
  | nil => rfl
  | cons a t => simp [List.dropWhile, h a (by simp)]

theorem trimWS_eq_self {l : List Char} (h : ∀ c ∈ l, isWS c = false) :
    trimWS l = l := by
  unfold trimWS
  rw [dropWhile_eq_self_of isWS l h,
    dropWhile_eq_self_of isWS l.reverse (fun c hc => h c (List.mem_reverse.mp hc)),
    List.reverse_reverse]

theorem splitWs_cons_not_ws (c : Char) (rest : List Char) (hc : isWS c = false) :
    splitWs (c :: rest) =
      match splitWs rest with
      | [] => [[c]]
      | p :: ps => (c :: p) :: ps := by
  rw [splitWs.eq_def]
  simp [hc]

theorem splitWs_no_ws {l : List Char} (hne : l ≠ []) (h : ∀ c ∈ l, isWS c = false) :
    splitWs l = [l] := by
  induction l with
  | nil => exact absurd rfl hne
  | cons c rest ih =>
    have hc : isWS c = false := h c (by simp)
    rw [splitWs_cons_not_ws c rest hc]
    rcases eq_or_ne rest [] with hrest | hrest
    · subst hrest
      simp [splitWs]
    · rw [ih hrest (fun x hx => h x (by simp [hx]))]

theorem map_eq_self_of (f : Char → Char) (l : List Char)
    (h : ∀ c ∈ l, f c = c) : l.map f = l := by
  induction l with
  | nil => rfl
  | cons a t ih => simp [h a (by simp), ih (fun c hc => h c (by simp [hc]))]

theorem flatten_replicate_length (n : Nat) (l : List Char) :
    ((List.replicate n l).flatten).length = n * l.length := by
  induction n with
  | zero => simp
  | succ m ih => simp [List.replicate_succ, ih]; ring

theorem mem_flatten_replicate {c : Char} {n : Nat} {l : List Char}
    (h : c ∈ (List.replicate n l).flatten) : c ∈ l := by
  rw [List.mem_flatten] at h
  obtain ⟨s, hs, hcs⟩ := h
  rwa [List.eq_of_mem_replicate hs] at hcs

/-- Claim C1: the content validator returns true iff the four checks of the
spec all pass (trimmed length at least 100; readable-character fraction at
least 0.70; meaningful-word fraction at least 0.30; some common English word
occurs as a case-insensitive substring); in particular any text whose
trimmed length is below 100 is rejected. -/
theorem isValidTextContent_iff_checks (t : List Char) :
    (isValidTextContent t = true ↔
      specLengthCheck t ∧ specReadableCheck t ∧ specMeaningfulCheck t ∧
        specCommonWordCheck t) ∧
    ((trimWS t).length < 100 → isValidTextContent t = false) := by
  have hpos : 0 < (splitWs (toLowerList t)).length :=
    List.length_pos.mpr (splitWs_ne_nil _)
  constructor
  · unfold isValidTextContent specLengthCheck specReadableCheck specMeaningfulCheck
      specCommonWordCheck
    dsimp only
    split_ifs with h1 h2 h3 h4
    · simp only [false_iff]
      rintro ⟨hc1, -, -, -⟩
      omega
    · simp only [false_iff]
      rintro ⟨-, hc2, -, -⟩
      omega
    · simp only [false_iff]
      rintro ⟨-, -, hc3, -⟩
      omega
    · simp only [false_iff]
      rintro ⟨-, -, -, hc4⟩
      simp [hc4] at h4
    · simp only [true_iff]
      refine ⟨by omega, by omega, by omega, ?_⟩
      simpa using h4
  · intro h
    unfold isValidTextContent
    simp [h]

/-- Witness for C1: a short input is rejected by the validator. -/
theorem isValidTextContent_iff_checks_witness :
    isValidTextContent "short".data = false :=
  (isValidTextContent_iff_checks "short".data).2 (by decide)

/-- Claim C2: if the reader strategy throws and the vision strategy returns
validator-approved text, the chain reports the vision strategy as the
extraction method, whatever the local strategy would have produced. -/
theorem pdfChain_vision_after_reader_throw (t : String) (pdfjs : Option String)
    (h : isValidS t = true) :
    pdfChain none (some t) pdfjs = (t, "gemini-vision") := by
  simp [pdfChain, runChain, h]

set_option maxRecDepth 20000 in
/-- Witness for C2 at the concrete sample paragraph. -/
theorem pdfChain_vision_after_reader_throw_witness :
    pdfChain none (some sampleText) none = (sampleText, "gemini-vision") :=
  pdfChain_vision_after_reader_throw sampleText none (by decide)

/-- Claim C6: the common-word check is substring containment, not token
matching: the text `cat` contains no common word as a whitespace-delimited
token, yet passes the check because the listed word `a` occurs inside
`cat`. -/
theorem common_word_check_substring_not_tokenized :
    hasCommonWords "cat".data = true ∧
    "a" ∈ commonWords ∧
    listContainsSub (toLowerList "cat".data) "a".data = true ∧
    commonWords.all
      (fun w => !((splitWs (toLowerList "cat".data)).contains w.data)) = true := by
  decide

/-- Claim C10: a request whose form data has no `file` field is answered
with 400 `No file provided`, independently of every strategy outcome and of
the analysis function. -/
theorem postFile_no_file_400 (jina gemini pdfjs : Option String)
    (analyze : String → String → Except String AnalysisResult) :
    POSTanalyzeFile none jina gemini pdfjs analyze =
      FileResponse.badRequest "No file provided" := rfl

/-- Claim C8: the metadata fetcher defaults a missing or erroring README to
the empty string, a missing description to the empty string, a missing (or,
by JavaScript falsiness, empty) primary language to `Unknown` and missing
topics to the empty list, and passes every other upstream field through
unchanged (the language pass-through holds for every non-empty upstream
value). -/
theorem fetchRepoData_defaults (info : GHRepoInfo) (cs : Option (List Contributor))
    (ls : Option (List (String × Nat))) (rr : Option String) :
    (rr = none → (fetchRepoData info cs ls rr).readme = "") ∧
    (info.description = none → (fetchRepoData info cs ls rr).description = "") ∧
    (info.language = none → (fetchRepoData info cs ls rr).language = "Unknown") ∧
    (info.language = some "" → (fetchRepoData info cs ls rr).language = "Unknown") ∧
    (info.topics = none → (fetchRepoData info cs ls rr).topics = []) ∧
    (fetchRepoData info cs ls rr).name = info.name ∧
    (fetchRepoData info cs ls rr).stars = info.stargazers_count ∧
    (fetchRepoData info cs ls rr).forks = info.forks_count ∧
    (fetchRepoData info cs ls rr).created_at = info.created_at ∧
    (fetchRepoData info cs ls rr).updated_at = info.updated_at ∧
    (∀ r, rr = some r → (fetchRepoData info cs ls rr).readme = r) ∧
    (∀ d, info.description = some d → (fetchRepoData info cs ls rr).description = d) ∧
    (∀ lg, info.language = some lg → lg ≠ "" →
      (fetchRepoData info cs ls rr).language = lg) ∧
    (∀ tp, info.topics = some tp → (fetchRepoData info cs ls rr).topics = tp) ∧
    (∀ c, cs = some c → (fetchRepoData info cs ls rr).contributors = c) ∧
    (∀ lg, ls = some lg → (fetchRepoData info cs ls rr).languages = lg) := by
  refine ⟨?_, ?_, ?_, ?_, ?_, rfl, rfl, rfl, rfl, rfl, ?_, ?_, ?_, ?_, ?_, ?_⟩ <;>
    first
      | (intro x h hne; simp [fetchRepoData, jsOrDefault, h, hne])
      | (intro x h; simp [fetchRepoData, jsOrDefault, h])
      | (intro h; simp [fetchRepoData, jsOrDefault, h])

/-- Witness for C8 at concrete repository-info objects: one with every
optional upstream field missing, one with an empty-string language, and one
with a non-empty language. -/
theorem fetchRepoData_defaults_witness :
    (fetchRepoData ⟨"repo", none, 5, 2, none, "c", "u", none⟩ none none none).readme = "" ∧
    (fetchRepoData ⟨"repo", none, 5, 2, none, "c", "u", none⟩ none none none).description = "" ∧
    (fetchRepoData ⟨"repo", none, 5, 2, none, "c", "u", none⟩ none none none).language = "Unknown" ∧
    (fetchRepoData ⟨"repo", none, 5, 2, some "", "c", "u", none⟩ none none none).language = "Unknown" ∧
    (fetchRepoData ⟨"repo", none, 5, 2, none, "c", "u", none⟩ none none none).topics = [] ∧
    (fetchRepoData ⟨"repo", none, 5, 2, some "Go", "c", "u", none⟩ none none none).language = "Go" :=
  ⟨(fetchRepoData_defaults _ _ _ _).1 rfl,
   (fetchRepoData_defaults _ _ _ _).2.1 rfl,
   (fetchRepoData_defaults _ _ _ _).2.2.1 rfl,
   (fetchRepoData_defaults _ _ _ _).2.2.2.1 rfl,
   (fetchRepoData_defaults _ _ _ _).2.2.2.2.1 rfl,
   (fetchRepoData_defaults _ _ _ _).2.2.2.2.2.2.2.2.2.2.2.2.1 "Go" rfl (by decide)⟩

/-- A strategy outcome that does not contribute valid content: it either
threw (`none`) or returned text the validator rejects. -/
def strategyFails (r : Option String) : Prop :=
  ∀ s, r = some s → isValidS s = false

theorem pdfChain_all_fail (j g p : Option String)
    (hj : strategyFails j) (hg : strategyFails g) (hp : strategyFails p) :
    (pdfChain j g p).1 = "" := by
  cases j with
  | none =>
    cases g with
    | none =>
      cases p with
      | none => rfl
      | some sp => simp [pdfChain, runChain, hp sp rfl]
    | some sg =>
      cases p with
      | none => simp [pdfChain, runChain, hg sg rfl]
      | some sp => simp [pdfChain, runChain, hg sg rfl, hp sp rfl]
  | some sj =>
    cases g with
    | none =>
      cases p with
      | none => simp [pdfChain, runChain, hj sj rfl]
      | some sp => simp [pdfChain, runChain, hj sj rfl, hp sp rfl]
    | some sg =>
      cases p with
      | none => simp [pdfChain, runChain, hj sj rfl, hg sg rfl]
      | some sp => simp [pdfChain, runChain, hj sj rfl, hg sg rfl, hp sp rfl]

theorem runChain_valid_or_empty (ms : List (String × Option String)) :
    ∀ content method : String, (content = "" ∨ isValidS content = true) →
      (runChain ms content method).1 = "" ∨
        isValidS (runChain ms content method).1 = true := by
  induction ms with
  | nil => exact fun content method h => h
  | cons m rest ih =>
    intro content method h
    obtain ⟨nm, r⟩ := m
    cases r with
    | none =>
      rw [show runChain ((nm, none) :: rest) content method =
        runChain rest content method from rfl]
      exact ih content method h
    | some c =>
      by_cases hv : isValidS c
      · rw [show runChain ((nm, some c) :: rest) content method =
          if isValidS c then (c, nm) else runChain rest "" nm from rfl, if_pos hv]
        exact Or.inr hv
      · rw [show runChain ((nm, some c) :: rest) content method =
          if isValidS c then (c, nm) else runChain rest "" nm from rfl, if_neg hv]
        exact ih "" nm (Or.inl rfl)

set_option maxRecDepth 100000 in
/-- Claim C3: when all three strategies fail (throw or produce
validator-rejected content), the PDF branch answers 400 with the terminal
message, and that message names the four canonical suspected causes. -/
theorem postFile_pdf_all_strategies_fail_400 (j g p : Option String)
    (f : UploadedFile) (analyze : String → String → Except String AnalysisResult)
    (hj : strategyFails j) (hg : strategyFails g) (hp : strategyFails p)
    (hf : isPDFFile f = true) :
    POSTanalyzeFile (some f) j g p analyze =
      FileResponse.badRequest pdfExtractionErrorMsg ∧
    listContainsSub pdfExtractionErrorMsg.data "Image-based (scanned document)".data = true ∧
    listContainsSub pdfExtractionErrorMsg.data "Password protected".data = true ∧
    listContainsSub pdfExtractionErrorMsg.data "Corrupted".data = true ∧
    listContainsSub pdfExtractionErrorMsg.data "selectable text".data = true := by
  have hempty : (pdfChain j g p).1 = "" := pdfChain_all_fail j g p hj hg hp
  exact ⟨by simp [POSTanalyzeFile, hf, hempty], by decide, by decide, by decide, by decide⟩

/-- Witness for C3: all three strategies throw. -/
theorem postFile_pdf_all_strategies_fail_400_witness :
    POSTanalyzeFile (some ⟨"doc.pdf", "application/pdf", ""⟩) none none none
      (fun _ _ => Except.error "e") =
      FileResponse.badRequest pdfExtractionErrorMsg :=
  (postFile_pdf_all_strategies_fail_400 none none none ⟨"doc.pdf", "application/pdf", ""⟩
    (fun _ _ => Except.error "e") (fun s h => nomatch h) (fun s h => nomatch h)
    (fun s h => nomatch h) (by decide)).1

/-- Claim C9: after the strategy loop the accumulated content is either
empty or validator-approved; hence a 200 response on the PDF branch means
the text handed to analysis generation was non-empty and
validator-approved. -/
theorem pdf_content_empty_or_valid (j g p : Option String) :
    ((pdfChain j g p).1 = "" ∨ isValidS (pdfChain j g p).1 = true) ∧
    (∀ (f : UploadedFile) (analyze : String → String → Except String AnalysisResult)
        (a : AnalysisResult), isPDFFile f = true →
        POSTanalyzeFile (some f) j g p analyze = FileResponse.ok a →
        (pdfChain j g p).1 ≠ "" ∧ isValidS (pdfChain j g p).1 = true) := by
  have hinv : (pdfChain j g p).1 = "" ∨ isValidS (pdfChain j g p).1 = true := by
    unfold pdfChain
    exact runChain_valid_or_empty _ "" "unknown" (Or.inl rfl)
  refine ⟨hinv, ?_⟩
  intro f analyze a hf h200
  by_cases he : (pdfChain j g p).1 = ""
  · simp [POSTanalyzeFile, hf, he] at h200
  · exact ⟨he, hinv.resolve_left he⟩

set_option maxRecDepth 20000 in
/-- Witness for C9: a 200 response obtained from a valid reader result. -/
theorem pdf_content_empty_or_valid_witness :
    (pdfChain (some sampleText) none none).1 ≠ "" ∧
    isValidS (pdfChain (some sampleText) none none).1 = true :=
  (pdf_content_empty_or_valid (some sampleText) none none).2
    ⟨"doc.pdf", "application/pdf", ""⟩
    (fun _ _ => Except.ok ⟨"s", [], [], [], "i"⟩)
    ⟨"s", [], [], [], "i"⟩ (by decide) (by decide)

theorem str_append_ne_empty (s t : String) (h : s ≠ "") : s ++ t ≠ "" := by
  intro he
  apply h
  have hd : s.data ++ t.data = ([] : List Char) := by
    rw [← String.data_append, he]
  have hs : s.data = [] := (List.append_eq_nil.mp hd).1
  exact String.ext (by rw [hs])

theorem buildFallback_invariants (wc sc pc : Nat) (hcode htech : Bool)
    (topics : List String) (method : String) :
    (buildFallback wc sc pc hcode htech topics method).summary ≠ "" ∧
    (buildFallback wc sc pc hcode htech topics method).insights ≠ "" ∧
    3 ≤ (buildFallback wc sc pc hcode htech topics method).features.length ∧
    2 ≤ (buildFallback wc sc pc hcode htech topics method).useCases.length := by
  refine ⟨?_, ?_, ?_, ?_⟩
  · simp only [buildFallback]
    repeat apply str_append_ne_empty
    decide
  · simp only [buildFallback]
    repeat apply str_append_ne_empty
    decide
  · simp [buildFallback]
  · simp [buildFallback]

/-- Claim C4: when the model call succeeds and the extracted JSON object
fails any quality-gate check — summary of at most 100 characters, fewer
than 3 features, fewer than 2 use cases, or insights of at most 100
characters — the model output is discarded and the deterministic fallback
object is returned; that fallback always has a non-empty summary, non-empty
insights, at least 3 features and at least 2 use cases. -/
theorem fileAnalysis_short_summary_fallback (text : String)
    (jp : String → Option AnalysisResult) (p : AnalysisResult)
    (wc sc pc : Nat) (hcode htech : Bool) (topics : List String) (method : String)
    (hparse : ∀ j, extractJsonCandidate text.data = some j → jp (String.mk j) = some p)
    (hfail : p.summary.length ≤ 100 ∨ p.features.length < 3 ∨
      p.useCases.length < 2 ∨ p.insights.length ≤ 100) :
    generateFileAnalysisResult (some text) jp wc sc pc hcode htech topics method =
      Except.ok (buildFallback wc sc pc hcode htech topics method) ∧
    (buildFallback wc sc pc hcode htech topics method).summary ≠ "" ∧
    (buildFallback wc sc pc hcode htech topics method).insights ≠ "" ∧
    3 ≤ (buildFallback wc sc pc hcode htech topics method).features.length ∧
    2 ≤ (buildFallback wc sc pc hcode htech topics method).useCases.length := by
  have hq : qualityCheck p = false := by
    unfold qualityCheck
    rcases hfail with h | h | h | h
    · simp [show ¬ (100 < p.summary.length) by omega]
    · simp [show ¬ (3 ≤ p.features.length) by omega]
    · simp [show ¬ (2 ≤ p.useCases.length) by omega]
    · simp [show ¬ (100 < p.insights.length) by omega]
  refine ⟨?_, buildFallback_invariants wc sc pc hcode htech topics method⟩
  unfold generateFileAnalysisResult
  cases hj : extractJsonCandidate text.data with
  | none => simp [hj]
  | some j => simp [hj, hparse j hj, hq]

/-- Witness for C4: a model reply that does contain a JSON object, whose
parse yields an object with a 5-character summary (3 features and 2 use
cases present), so the fallback is returned through the contains-JSON
branch. -/
theorem fileAnalysis_short_summary_fallback_witness :
    generateFileAnalysisResult (some "reply: \x7b\"summary\": \"short\"\x7d")
        (fun _ => some ⟨"short", ["f1", "f2", "f3"], [], ["u1", "u2"], "i"⟩)
        10 2 1 true false ["data"] "jina-ai" =
      Except.ok (buildFallback 10 2 1 true false ["data"] "jina-ai") :=
  (fileAnalysis_short_summary_fallback "reply: \x7b\"summary\": \"short\"\x7d"
    (fun _ => some ⟨"short", ["f1", "f2", "f3"], [], ["u1", "u2"], "i"⟩)
    ⟨"short", ["f1", "f2", "f3"], [], ["u1", "u2"], "i"⟩
    10 2 1 true false ["data"] "jina-ai"
    (fun _ _ => rfl)
    (Or.inl (by decide))).1

/-- Counterexample for C7: with a non-success upstream status (reply body
without `candidates`, so the text access throws), the repository handler
returns the 500 response, not the degraded stub. -/
theorem repo_upstream_error_propagates_500 :
    generateAnalysis none (fun _ => none) "TypeScript" = Except.error () ∧
    handleRepoAnalysis none (fun _ => none) "TypeScript" =
      RepoResponse.serverError "Failed to analyze repository" := ⟨rfl, rfl⟩

/-- Claim C7 as amended: on the repository path a non-success upstream
status is not caught — it propagates as a thrown error and the request
handler answers 500 `Failed to analyze repository`; the degraded stub
(first 200 characters of the raw model text plus placeholder fields) is
returned only when the model call succeeds and its reply fails JSON
extraction or parsing. -/
theorem repo_parse_failure_degraded_stub (text : String)
    (jp : String → Option AnalysisResult) (language : String)
    (hparse : ∀ j, extractJsonCandidate text.data = some j → jp (String.mk j) = none) :
    generateAnalysis (some text) jp language =
      Except.ok (repoAnalysisFallback text language) ∧
    generateAnalysis none jp language = Except.error () ∧
    handleRepoAnalysis none jp language =
      RepoResponse.serverError "Failed to analyze repository" := by
  refine ⟨?_, rfl, rfl⟩
  unfold generateAnalysis
  cases hj : extractJsonCandidate text.data with
  | none => simp [hj]
  | some j => simp [hj, hparse j hj]

/-- Witness for C7 (amended) at a reply with no JSON object. -/
theorem repo_parse_failure_degraded_stub_witness :
    generateAnalysis (some "hello") (fun _ => none) "Python" =
      Except.ok (repoAnalysisFallback "hello" "Python") :=
  (repo_parse_failure_degraded_stub "hello" (fun _ => none) "Python"
    (fun _ _ => rfl)).1

set_option maxRecDepth 100000 in
/-- Counterexample for C5: the 112-character repetition of the hex-like
token is rejected by the validator, yet the common-word check passes on it
(the listed word `a` occurs as a substring), so it is not the failing
check. -/
theorem hex_repeat_common_check_passes :
    isValidTextContent (hexRepeat 7) = false ∧
    hasCommonWords (hexRepeat 7) = true ∧
    100 ≤ (hexRepeat 7).length := by
  decide

/-- Claim C5 as amended: for every repetition (of length at least 100) of
the hex-like token, the validator rejects the text, but the failing check is
the meaningful-word ratio; the length, readable-ratio and common-word checks
all pass (the listed word `a` occurs as a substring of the hex token). -/
theorem hex_repeat_rejected_by_meaningful_check (n : Nat) (hn : 7 ≤ n) :
    isValidTextContent (hexRepeat n) = false ∧
    100 ≤ (hexRepeat n).length ∧
    ¬ specMeaningfulCheck (hexRepeat n) ∧
    specCommonWordCheck (hexRepeat n) ∧
    specLengthCheck (hexRepeat n) ∧
    specReadableCheck (hexRepeat n) := by
  have htokmem : ∀ c ∈ hexRepeat n, c ∈ hexTok := fun c hc => mem_flatten_replicate hc
  have hws : ∀ c ∈ hexRepeat n, isWS c = false := by
    have hall : ∀ c ∈ hexTok, isWS c = false := by decide
    exact fun c hc => hall c (htokmem c hc)
  have h16 : hexTok.length = 16 := by decide
  have hlen : (hexRepeat n).length = n * 16 := by
    unfold hexRepeat
    rw [flatten_replicate_length, h16]
  have hne : hexRepeat n ≠ [] := by
    have hpos : 0 < (hexRepeat n).length := by rw [hlen]; omega
    exact List.length_pos.mp hpos
  have hlower : toLowerList (hexRepeat n) = hexRepeat n := by
    apply map_eq_self_of
    have hall : ∀ c ∈ hexTok, Char.toLower c = c := by decide
    exact fun c hc => hall c (htokmem c hc)
  have htrim : trimWS (hexRepeat n) = hexRepeat n := trimWS_eq_self hws
  have hwords : splitWs (toLowerList (hexRepeat n)) = [hexRepeat n] := by
    rw [hlower]
    exact splitWs_no_ws hne hws
  have hmw : isMeaningfulWord (hexRepeat n) = false := by
    have h20 : ¬ ((hexRepeat n).length ≤ 20) := by rw [hlen]; omega
    simp [isMeaningfulWord, h20]
  have hreadable : (hexRepeat n).filter isReadableChar = hexRepeat n := by
    rw [List.filter_eq_self]
    have hall : ∀ c ∈ hexTok, isReadableChar c = true := by decide
    exact fun c hc => hall c (htokmem c hc)
  have hcommon : hasCommonWords (hexRepeat n) = true := by
    obtain ⟨m, rfl⟩ : ∃ m, n = m + 1 := ⟨n - 1, by omega⟩
    have hsplit : hexRepeat (m + 1) = hexTok ++ hexRepeat m := by
      unfold hexRepeat
      rw [List.replicate_succ, List.flatten_cons]
    unfold hasCommonWords
    rw [List.any_eq_true]
    refine ⟨"a", by decide, ?_⟩
    rw [hlower, hsplit, show hexTok = 'a' :: "1b2c3d4a1b2c3d4".data from by decide]
    simp [listContainsSub, listStartsWith]
  refine ⟨?_, by rw [hlen]; omega, ?_, hcommon, ?_, ?_⟩
  · unfold isValidTextContent
    dsimp only
    rw [htrim, hreadable, hwords]
    rw [if_neg (show ¬ ((hexRepeat n).length < 100) by rw [hlen]; omega)]
    rw [if_neg (show ¬ ((hexRepeat n).length * 10 < (hexRepeat n).length * 7) by omega)]
    simp [hmw]
  · unfold specMeaningfulCheck
    rw [hwords]
    simp [hmw]
  · unfold specLengthCheck
    rw [htrim, hlen]
    omega
  · unfold specReadableCheck
    rw [hreadable]
    omega

/-- Witness for C5 (amended) at seven repetitions. -/
theorem hex_repeat_rejected_by_meaningful_check_witness :
    isValidTextContent (hexRepeat 7) = false ∧
    specCommonWordCheck (hexRepeat 7) :=
  ⟨(hex_repeat_rejected_by_meaningful_check 7 (by decide)).1,
   (hex_repeat_rejected_by_meaningful_check 7 (by decide)).2.2.2.1⟩
